import Mathlib

/-!
A shallow embedding of the core game logic of the snake program
(src/src/lib.rs, with src/src/main.rs as an earlier revision of the same
code).  Machine integers (`u32`) are modelled as `Nat`: every subtraction
performed by the code is guarded (`new_head.x -= 1` only runs when
`new_head.x != 0`, and `hcells - 1` is evaluated with `hcells = 38` in the
program), so truncated `Nat` subtraction agrees with `u32` arithmetic on
all inputs the theorems quantify over.  Fallible operations
(`self.snake.body[0]` and `pop().unwrap()`, which panic on an empty body,
and `create_rect`, which returns `Option`) are modelled with `Option`.
The random draws `rng.gen_range(0..hcells)` / `rng.gen_range(0..vcells)`
are modelled by passing the drawn values `rx`, `ry` as explicit arguments,
quantified over the ranges `[0, hcells)` and `[0, vcells)`.
-/

namespace SnakeGame

/-- Constants from lib.rs lines 18-21. -/
def WIDTH : Nat := 800

def HEIGHT : Nat := 600

def SPACING : Nat := 20

def CELL_SPACE : Nat := 20

/-- lib.rs `Coordinate` (lines 85-89): the coordinates of a cell. -/
structure Coordinate where
  x : Nat
  y : Nat
deriving DecidableEq

/-- lib.rs `Direction` (lines 75-81). -/
inductive Direction
  | LEFT
  | RIGHT
  | UP
  | DOWN
deriving DecidableEq, Fintype

/-- An SDL `Rect` as used by the game: x, y, width, height.  The values the
game feeds to `Rect::new` are all non-negative, so `Nat` fields suffice. -/
structure Rect where
  x : Nat
  y : Nat
  w : Nat
  h : Nat
deriving DecidableEq

/-- lib.rs `GameArea` (lines 64-70). -/
structure GameArea where
  hcells : Nat
  vcells : Nat
  game_area : Rect
  grid : List Rect
deriving DecidableEq

/-- lib.rs `Snake` (lines 94-97). -/
structure Snake where
  direction : Direction
  body : List Coordinate
deriving DecidableEq

/-- The game-logic fields of lib.rs `Game` (lines 243-253).  The SDL
context, speed, score rectangle and font play no part in the simulation
logic and are omitted. -/
structure Game where
  display : GameArea
  score : Nat
  snake : Snake
  food : Coordinate
deriving DecidableEq

/-- Helper to build a `Game` from its parts in theorem statements. -/
def mkGame (display : GameArea) (score : Nat) (dir : Direction)
    (body : List Coordinate) (food : Coordinate) : Game :=
  { display := display, score := score,
    snake := { direction := dir, body := body }, food := food }

/-- lib.rs `create_rect` (lines 163-179): the pixel rectangle of a game
coordinate, `none` when the coordinate fails the (historical, `>` rather
than `>=`) bounds check. -/
def create_rect (display : GameArea) (coord : Coordinate) : Option Rect :=
  if coord.x > display.hcells then
    none
  else if coord.y > display.vcells then
    none
  else
    some { x := (1 + coord.x) * CELL_SPACE, y := (1 + coord.y) * CELL_SPACE,
           w := CELL_SPACE, h := CELL_SPACE }

/-- lib.rs `create_snake` (lines 184-216): a five-cell horizontal body
centered on the grid, heading RIGHT. -/
def create_snake (display : GameArea) : Snake :=
  { direction := .RIGHT,
    body :=
      [ { x := display.hcells / 2, y := display.vcells / 2 },
        { x := display.hcells / 2 - 1, y := display.vcells / 2 },
        { x := display.hcells / 2 - 2, y := display.vcells / 2 },
        { x := display.hcells / 2 - 3, y := display.vcells / 2 },
        { x := display.hcells / 2 - 4, y := display.vcells / 2 } ] }

/-- lib.rs `create_grid` (lines 220-239): cell counts derived from the
pixel constants, plus the precomputed per-cell rectangles in row-major
order (the code unwraps `create_rect`, which the bounds theorem shows is
`some` on every generated coordinate). -/
def create_grid : GameArea :=
  let base : GameArea :=
    { vcells := (HEIGHT - 2 * SPACING) / SPACING,
      hcells := (WIDTH - 2 * SPACING) / SPACING,
      game_area := { x := SPACING, y := SPACING,
                     w := WIDTH - 2 * SPACING, h := HEIGHT - 2 * SPACING },
      grid := [] }
  { base with
    grid := (List.range base.vcells).flatMap fun vcell =>
      (List.range base.hcells).filterMap fun hcell =>
        create_rect base { x := hcell, y := vcell } }

/-- The wall check and head shift of lib.rs `draw_frame` (lines 514-543):
`none` models the `return false` taken when the shift would leave the
grid, `some` carries the shifted head. -/
def new_head_of (display : GameArea) (dir : Direction) (head : Coordinate) :
    Option Coordinate :=
  match dir with
  | .LEFT => if head.x = 0 then none else some { x := head.x - 1, y := head.y }
  | .RIGHT => if head.x = display.hcells - 1 then none
              else some { x := head.x + 1, y := head.y }
  | .UP => if head.y = 0 then none else some { x := head.x, y := head.y - 1 }
  | .DOWN => if head.y = display.vcells - 1 then none
             else some { x := head.x, y := head.y + 1 }

/-- The food check of lib.rs `draw_frame` (lines 544-552): on a food hit
the food is respawned at the drawn cell and the score incremented; else
the tail is popped (`Vec::pop` removes the last element; the body is
non-empty at this point since its head was just read). -/
def food_step (g : Game) (nh : Coordinate) (rx ry : Nat) : Game :=
  if nh.x = g.food.x ∧ nh.y = g.food.y then
    { g with food := { x := rx, y := ry }, score := g.score + 1 }
  else
    { g with snake := { g.snake with body := g.snake.body.dropLast } }

/-- lib.rs line 554: `self.snake.body.insert(0, new_head)`. -/
def insert_head (g : Game) (nh : Coordinate) : Game :=
  { g with snake := { g.snake with body := nh :: g.snake.body } }

/-- Lines 544-554 of lib.rs combined: food check / tail pop, then the new
head inserted at the front. -/
def advance_state (g : Game) (nh : Coordinate) (rx ry : Nat) : Game :=
  insert_head (food_step g nh rx ry) nh

/-- The three ways one PLAYING tick can leave the game, each carrying the
game state as it stands when `draw_frame` returns.  `wall` and `selfHit`
are the two `return false` sites of lib.rs `draw_frame` (wall check at
lines 514-543, self-collision scan at lines 556-560); `ok` is the
`return true` path. -/
inductive TickResult
  | wall (g : Game)
  | selfHit (g : Game)
  | ok (g : Game)
deriving DecidableEq

/-- The game carried by a tick result. -/
def TickResult.game : TickResult → Game
  | .wall g => g
  | .selfHit g => g
  | .ok g => g

/-- The simulation core of lib.rs `draw_frame` (lines 511-560), rendering
calls omitted.  `none` models the index panic of `self.snake.body[0]` on
an empty body (which the round invariant rules out).  On a wall hit the
function returns before any mutation, so `wall` carries `g` itself; the
self-collision scan runs on the already-advanced state, so `selfHit`
carries the mutated game. -/
def draw_frame (g : Game) (rx ry : Nat) : Option TickResult :=
  match g.snake.body with
  | [] => none
  | head :: _ =>
    match new_head_of g.display g.snake.direction head with
    | none => some (.wall g)
    | some nh =>
      if (advance_state g nh rx ry).snake.body.tail.any
          (fun b => nh.x == b.x && nh.y == b.y) then
        some (.selfHit (advance_state g nh rx ry))
      else
        some (.ok (advance_state g nh rx ry))

/-- The four direction-key arms of lib.rs `game_loop` (lines 441-467): the
requested direction is applied unless the snake currently heads in the
opposite direction. -/
def apply_direction_key (current requested : Direction) : Direction :=
  match requested with
  | .LEFT => if current ≠ .RIGHT then .LEFT else current
  | .RIGHT => if current ≠ .LEFT then .RIGHT else current
  | .UP => if current ≠ .DOWN then .UP else current
  | .DOWN => if current ≠ .UP then .DOWN else current

/-- The opposite of a direction (the spec's notion of an exact reversal). -/
def opposite : Direction → Direction
  | .LEFT => .RIGHT
  | .RIGHT => .LEFT
  | .UP => .DOWN
  | .DOWN => .UP

/-- lib.rs `GameState` (lines 42-48). -/
inductive GameState
  | STARTING
  | PLAYING
  | PAUSED
  | GAMEOVER
deriving DecidableEq, Fintype

/-- lib.rs `GameTransition` (lines 53-59). -/
inductive GameTransition
  | PLAY
  | PAUSE
  | LOSE
  | EXIT
deriving DecidableEq, Fintype

/-- The per-state transition table of lib.rs `Game::start` (lines 638-690):
the (state, transition) pairs for which an inner match arm assigns
`self.context.current_state`, and the state assigned.  `none` is every arm
that falls through to `handled = false`. -/
def table_next (s : GameState) (t : GameTransition) : Option GameState :=
  match s, t with
  | .STARTING, .PLAY => some .PLAYING
  | .PLAYING, .PAUSE => some .PAUSED
  | .PLAYING, .LOSE => some .GAMEOVER
  | .PAUSED, .PLAY => some .PLAYING
  | .PAUSED, .LOSE => some .GAMEOVER
  | .GAMEOVER, .PLAY => some .STARTING
  | _, _ => none

/-- What one iteration of the `Game::start` driver loop does with a
returned transition: `next` continues with the updated state, `exitGame`
is the global `return` on EXIT (lib.rs lines 695-698), and `invalid s t`
is the final `else` arm's `panic!` (line 700), whose message names both
the offending transition and the offending state. -/
inductive FsmStep
  | next (s : GameState)
  | exitGame
  | invalid (s : GameState) (t : GameTransition)
deriving DecidableEq

/-- The dispatch of lib.rs `Game::start` (lines 692-701): a pair in the
table updates the state (`handled` stays true and the loop continues); an
unhandled EXIT returns; any other unhandled pair panics. -/
def fsm_step (s : GameState) (t : GameTransition) : FsmStep :=
  match table_next s t with
  | some s2 => .next s2
  | none => if t = .EXIT then .exitGame else .invalid s t

/-- The events lib.rs `game_over_loop` (lines 615-626) distinguishes:
`Quit` or an Escape key-down yield EXIT, any other key-down yields PLAY,
anything else loops. -/
inductive GameOverEvent
  | quit
  | escapeDown
  | otherKeyDown
  | nonKey

/-- The event match of lib.rs `game_over_loop` (lines 615-626).  The loop
only reads events and draws; it never writes `self.score`, `self.snake`
or `self.food`, so it is a function of the events alone.  `none` models a
stream on which the loop blocks forever. -/
def game_over_loop : List GameOverEvent → Option GameTransition
  | [] => none
  | .quit :: _ => some .EXIT
  | .escapeDown :: _ => some .EXIT
  | .otherKeyDown :: _ => some .PLAY
  | .nonKey :: rest => game_over_loop rest

/-- The events lib.rs `game_starting` (lines 353-382) distinguishes. -/
inductive MenuEvent
  | quit
  | escapeDown
  | upDownJK
  | returnKey
  | other

/-- The event loop of lib.rs `game_starting` (lines 353-382), with
`current_option` the local menu cursor (0 = New Game, 1 = Exit).  Like the
game-over loop it only reads events and draws the menu; it never writes
`self.score`, `self.snake` or `self.food`. -/
def game_starting (current_option : Nat) : List MenuEvent → Option GameTransition
  | [] => none
  | .quit :: _ => some .EXIT
  | .escapeDown :: _ => some .EXIT
  | .upDownJK :: rest => game_starting (1 - current_option) rest
  | .returnKey :: _ =>
    if current_option = 1 then some .EXIT else some .PLAY
  | .other :: rest => game_starting current_option rest

/-- The session state owned by the `Game::start` driver: the active screen
(`GameContext.current_state`) together with the game-logic fields. -/
structure Session where
  current_state : GameState
  game : Game
deriving DecidableEq

/-- The path `Game::start` takes from GAMEOVER back into PLAYING (lib.rs
lines 632-703): run `game_over_loop`; on PLAY set the state to STARTING
(line 684) and run `game_starting` (with its local `current_option`
starting at 0); on PLAY set the state to PLAYING (line 645).  No statement
on this path writes `self.score`, `self.snake` or `self.food` — the
driver only assigns `self.context.current_state` — so the game fields are
carried through unchanged.  `none` models every other outcome (EXIT or a
blocked loop). -/
def restart_round (sess : Session) (goEvents : List GameOverEvent)
    (menuEvents : List MenuEvent) : Option Session :=
  match game_over_loop goEvents with
  | some .PLAY =>
    match game_starting 0 menuEvents with
    | some .PLAY => some { current_state := .PLAYING, game := sess.game }
    | _ => none
  | _ => none

/-- A game at the end of a lost round, as `Game::start` holds it when the
GAMEOVER screen is entered: the snake that just hit the east wall heading
RIGHT (head at `x = hcells - 1 = 37`), seven foods eaten. -/
def dead_snake_game : Game :=
  mkGame create_grid 7 .RIGHT
    [ { x := 37, y := 14 }, { x := 36, y := 14 }, { x := 35, y := 14 },
      { x := 34, y := 14 }, { x := 33, y := 14 } ]
    { x := 3, y := 3 }

/-! ## Shared lemmas about the tick -/

/-- The wall check fails exactly at the four boundary configurations the
code tests for. -/
theorem new_head_of_eq_none_iff (d : GameArea) (dir : Direction) (head : Coordinate) :
    new_head_of d dir head = none ↔
      (dir = .LEFT ∧ head.x = 0) ∨
      (dir = .RIGHT ∧ head.x = d.hcells - 1) ∨
      (dir = .UP ∧ head.y = 0) ∨
      (dir = .DOWN ∧ head.y = d.vcells - 1) := by
  cases dir <;> simp [new_head_of]

/-- A head strictly inside the grid that passes the wall check is shifted
to a cell strictly inside the grid. -/
theorem new_head_of_some_lt (d : GameArea) (dir : Direction) (head nh : Coordinate)
    (hx : head.x < d.hcells) (hy : head.y < d.vcells)
    (h : new_head_of d dir head = some nh) :
    nh.x < d.hcells ∧ nh.y < d.vcells := by
  cases dir <;>
    (simp only [new_head_of] at h
     split at h
     · exact Option.noConfusion h
     · injection h with h2
       subst h2
       refine ⟨?_, ?_⟩ <;> simp <;> omega)

/-- The component-wise comparison `new_head.x == b.x && new_head.y == b.y`
of the self-collision scan is coordinate equality. -/
theorem coord_beq_iff (a b : Coordinate) :
    ((a.x == b.x && a.y == b.y) = true) ↔ a = b := by
  cases a; cases b; simp [Coordinate.mk.injEq]

/-- The body after the food check and head insertion: the new head in
front of the old body (food eaten) or of the old body with its tail
popped. -/
theorem advance_state_body (g : Game) (nh : Coordinate) (rx ry : Nat) :
    (advance_state g nh rx ry).snake.body =
      nh :: (if nh.x = g.food.x ∧ nh.y = g.food.y then g.snake.body
             else g.snake.body.dropLast) := by
  unfold advance_state insert_head food_step
  split <;> simp

/-- Score and food after the food check: incremented and respawned at the
drawn cell on a hit, untouched otherwise; the direction and display are
never written by the tick. -/
theorem advance_state_fields (g : Game) (nh : Coordinate) (rx ry : Nat) :
    ((nh.x = g.food.x ∧ nh.y = g.food.y) →
      (advance_state g nh rx ry).score = g.score + 1 ∧
      (advance_state g nh rx ry).food = { x := rx, y := ry }) ∧
    (¬(nh.x = g.food.x ∧ nh.y = g.food.y) →
      (advance_state g nh rx ry).score = g.score ∧
      (advance_state g nh rx ry).food = g.food) ∧
    (advance_state g nh rx ry).snake.direction = g.snake.direction ∧
    (advance_state g nh rx ry).display = g.display := by
  unfold advance_state insert_head food_step
  refine ⟨fun h => ?_, fun h => ?_, ?_, ?_⟩ <;> split <;> simp_all

/-- Complete case analysis of one tick: an empty body panics; a wall hit
returns the untouched game; otherwise the tick advances the state and
reports `selfHit` or `ok` according to the body scan. -/
theorem draw_frame_shape (g : Game) (rx ry : Nat) :
    (g.snake.body = [] ∧ draw_frame g rx ry = none) ∨
    (∃ head rest, g.snake.body = head :: rest ∧
      ((new_head_of g.display g.snake.direction head = none ∧
        draw_frame g rx ry = some (.wall g)) ∨
       (∃ nh, new_head_of g.display g.snake.direction head = some nh ∧
         ((draw_frame g rx ry = some (.selfHit (advance_state g nh rx ry)) ∧
           (advance_state g nh rx ry).snake.body.tail.any
             (fun b => nh.x == b.x && nh.y == b.y) = true) ∨
          (draw_frame g rx ry = some (.ok (advance_state g nh rx ry)) ∧
           (advance_state g nh rx ry).snake.body.tail.any
             (fun b => nh.x == b.x && nh.y == b.y) = false))))) := by
  unfold draw_frame
  split
  · next hb => exact Or.inl ⟨hb, rfl⟩
  · next head tail hb =>
    refine Or.inr ⟨head, tail, hb, ?_⟩
    split
    · next hn => exact Or.inl ⟨hn, rfl⟩
    · next nh hn =>
      refine Or.inr ⟨nh, hn, ?_⟩
      split
      · next hc => exact Or.inl ⟨rfl, hc⟩
      · next hc => exact Or.inr ⟨rfl, Bool.eq_false_iff.mpr hc⟩

/-- The component-wise scan condition as membership in the scanned list. -/
theorem any_beq_iff_mem (nh : Coordinate) (l : List Coordinate) :
    (l.any fun b => nh.x == b.x && nh.y == b.y) = true ↔ nh ∈ l := by
  rw [List.any_eq_true]
  constructor
  · rintro ⟨b, hb, hbeq⟩
    rw [(coord_beq_iff nh b).mp hbeq]
    exact hb
  · intro h
    exact ⟨nh, h, (coord_beq_iff nh nh).mpr rfl⟩

/-! ## Concrete games used by the witnesses (a small but legal grid) -/

/-- A 10 × 8 grid for the witnesses. -/
def d0 : GameArea :=
  { hcells := 10, vcells := 8,
    game_area := { x := 20, y := 20, w := 760, h := 560 }, grid := [] }

/-- Heading RIGHT with the head on the east wall column. -/
def w1 : Game := mkGame d0 0 .RIGHT [{ x := 9, y := 4 }, { x := 8, y := 4 }] { x := 2, y := 2 }

/-- Heading LEFT with the head on the west wall column, score 3. -/
def w2 : Game := mkGame d0 3 .LEFT [{ x := 0, y := 4 }, { x := 1, y := 4 }] { x := 5, y := 5 }

/-! ## The claims -/

/-- C1: a PLAYING tick whose head lies inside the grid signals
WallCollision exactly when the one-cell shift along the current direction
would leave the grid (x = 0 heading LEFT, x = hcells - 1 heading RIGHT,
y = 0 heading UP, y = vcells - 1 heading DOWN), and whenever the tick
reports success the new head satisfies x < hcells and y < vcells (x and y
are `Nat`, so 0 ≤ x and 0 ≤ y hold by construction: no wraparound). -/
theorem wall_collision_exactly_at_boundary
    (g : Game) (rx ry : Nat) (head : Coordinate) (rest : List Coordinate)
    (hb : g.snake.body = head :: rest)
    (hx : head.x < g.display.hcells) (hy : head.y < g.display.vcells) :
    (draw_frame g rx ry = some (.wall g) ↔
      (g.snake.direction = .LEFT ∧ head.x = 0) ∨
      (g.snake.direction = .RIGHT ∧ head.x = g.display.hcells - 1) ∨
      (g.snake.direction = .UP ∧ head.y = 0) ∨
      (g.snake.direction = .DOWN ∧ head.y = g.display.vcells - 1)) ∧
    (∀ g2, draw_frame g rx ry = some (.ok g2) →
      ∃ nh rest2, g2.snake.body = nh :: rest2 ∧
        nh.x < g.display.hcells ∧ nh.y < g.display.vcells) := by
  rcases draw_frame_shape g rx ry with ⟨he, _⟩ | ⟨head2, rest2, hb2, hcase⟩
  · rw [hb] at he
    exact absurd he (List.cons_ne_nil _ _)
  · rw [hb] at hb2
    injection hb2 with e1 e2
    subst e1
    subst e2
    rcases hcase with ⟨hn, hw⟩ | ⟨nh, hn, ⟨hsc, _⟩ | ⟨hok, _⟩⟩
    · refine ⟨⟨fun _ => (new_head_of_eq_none_iff g.display g.snake.direction head).mp hn,
        fun _ => hw⟩, ?_⟩
      intro g2 hg2
      rw [hw] at hg2
      exact TickResult.noConfusion (Option.some.inj hg2)
    · refine ⟨⟨fun h => ?_, fun h => ?_⟩, ?_⟩
      · rw [hsc] at h
        exact TickResult.noConfusion (Option.some.inj h)
      · rw [(new_head_of_eq_none_iff g.display g.snake.direction head).mpr h] at hn
        exact Option.noConfusion hn
      · intro g2 hg2
        rw [hsc] at hg2
        exact TickResult.noConfusion (Option.some.inj hg2)
    · refine ⟨⟨fun h => ?_, fun h => ?_⟩, ?_⟩
      · rw [hok] at h
        exact TickResult.noConfusion (Option.some.inj h)
      · rw [(new_head_of_eq_none_iff g.display g.snake.direction head).mpr h] at hn
        exact Option.noConfusion hn
      · intro g2 hg2
        rw [hok] at hg2
        have hadv : TickResult.ok (advance_state g nh rx ry) = TickResult.ok g2 :=
          Option.some.inj hg2
        injection hadv with hadv2
        subst hadv2
        have hbody := advance_state_body g nh rx ry
        have hlt := new_head_of_some_lt g.display g.snake.direction head nh hx hy hn
        exact ⟨nh, _, hbody, hlt.1, hlt.2⟩

/-- Witness for C1: the snake of `w1` heads RIGHT with its head at
x = hcells - 1 = 9, and the tick signals WallCollision there. -/
theorem wall_collision_boundary_witness :
    draw_frame w1 0 0 = some (.wall w1) := by
  have h := wall_collision_exactly_at_boundary w1 0 0 { x := 9, y := 4 }
    [{ x := 8, y := 4 }] rfl (by decide) (by decide)
  exact h.1.mpr (Or.inr (Or.inl ⟨rfl, rfl⟩))

/-- C2: a tick that signals WallCollision mutates nothing: the body, the
direction, the food and the score are exactly as before the tick (in the
code, both wall branches `return false` before any write to `self`). -/
theorem wall_collision_mutates_nothing (g g2 : Game) (rx ry : Nat)
    (h : draw_frame g rx ry = some (.wall g2)) :
    g2.snake.body = g.snake.body ∧ g2.snake.direction = g.snake.direction ∧
    g2.food = g.food ∧ g2.score = g.score := by
  rcases draw_frame_shape g rx ry with ⟨_, hn⟩ | ⟨head, rest, hb, hcase⟩
  · rw [hn] at h
    exact Option.noConfusion h
  · rcases hcase with ⟨_, hw⟩ | ⟨nh, _, ⟨hsc, _⟩ | ⟨hok, _⟩⟩
    · have h2 : TickResult.wall g = TickResult.wall g2 :=
        Option.some.inj (hw.symm.trans h)
      injection h2 with h3
      subst h3
      exact ⟨rfl, rfl, rfl, rfl⟩
    · rw [hsc] at h
      exact TickResult.noConfusion (Option.some.inj h)
    · rw [hok] at h
      exact TickResult.noConfusion (Option.some.inj h)

/-- Witness for C2: `w2` (heading LEFT, head at x = 0, score 3) hits the
wall and its state is untouched. -/
theorem wall_collision_no_mutation_witness :
    draw_frame w2 1 1 = some (.wall w2) ∧
    (w2.snake.body = w2.snake.body ∧ w2.snake.direction = w2.snake.direction ∧
     w2.food = w2.food ∧ w2.score = w2.score) :=
  ⟨by decide, wall_collision_mutates_nothing w2 w2 1 1 (by decide)⟩

/-- Coordinate equality is component-wise equality. -/
theorem coord_eq_iff (a b : Coordinate) : a = b ↔ a.x = b.x ∧ a.y = b.y := by
  cases a
  cases b
  simp

/-- The state the eating witness tick reaches: head moved onto the food,
score 1, food respawned at the drawn cell (2, 3). -/
def w3after : Game :=
  mkGame d0 1 .RIGHT [{ x := 5, y := 4 }, { x := 4, y := 4 }, { x := 3, y := 4 }]
    { x := 2, y := 3 }

/-- C3: on a successful tick, eating the food (new head = food) increments
the score by exactly 1, respawns the food at the independently drawn cell
(rx, ry) — an arbitrary cell of `[0, hcells) × [0, vcells)`, which is how
the two independent uniform draws of `rng.gen_range` are modelled — and
grows the body by exactly one cell; otherwise the tail cell is removed,
the length is unchanged and the score and food are untouched.  The score
never decreases. -/
theorem food_scoring_and_growth
    (d : GameArea) (sc : Nat) (dir : Direction) (head : Coordinate)
    (rest : List Coordinate) (food : Coordinate) (rx ry : Nat) (g2 : Game)
    (hrx : rx < d.hcells) (hry : ry < d.vcells)
    (hok : draw_frame (mkGame d sc dir (head :: rest) food) rx ry = some (.ok g2)) :
    (∃ nh, new_head_of d dir head = some nh ∧
      (nh = food →
        g2.score = sc + 1 ∧ g2.food = { x := rx, y := ry } ∧
        g2.food.x < d.hcells ∧ g2.food.y < d.vcells ∧
        g2.snake.body.length = (head :: rest).length + 1) ∧
      (nh ≠ food →
        g2.score = sc ∧ g2.food = food ∧
        g2.snake.body = nh :: (head :: rest).dropLast ∧
        g2.snake.body.length = (head :: rest).length)) ∧
    sc ≤ g2.score := by
  rcases draw_frame_shape (mkGame d sc dir (head :: rest) food) rx ry with
    ⟨he, _⟩ | ⟨head2, rest2, hb2, hcase⟩
  · exact absurd he (by simp [mkGame])
  · have hb3 : head :: rest = head2 :: rest2 := hb2
    injection hb3 with e1 e2
    subst e1
    subst e2
    rcases hcase with ⟨_, hw⟩ | ⟨nh, hn, ⟨hsc, _⟩ | ⟨hok2, _⟩⟩
    · rw [hw] at hok
      exact TickResult.noConfusion (Option.some.inj hok)
    · rw [hsc] at hok
      exact TickResult.noConfusion (Option.some.inj hok)
    · rw [hok2] at hok
      have hadv : TickResult.ok (advance_state (mkGame d sc dir (head :: rest) food) nh rx ry)
          = TickResult.ok g2 := Option.some.inj hok
      injection hadv with hadv2
      subst hadv2
      have hbody := advance_state_body (mkGame d sc dir (head :: rest) food) nh rx ry
      obtain ⟨hfields1, hfields2, -, -⟩ :=
        advance_state_fields (mkGame d sc dir (head :: rest) food) nh rx ry
      simp only [mkGame] at hbody hfields1 hfields2 hn ⊢
      by_cases hfood : nh.x = food.x ∧ nh.y = food.y
      · have heq : nh = food := (coord_eq_iff nh food).mpr hfood
        obtain ⟨hscore, hfoodeq⟩ := hfields1 hfood
        refine ⟨⟨nh, hn, fun _ => ⟨hscore, hfoodeq, ?_, ?_, ?_⟩,
          fun hne => absurd heq hne⟩, ?_⟩
        · rw [hfoodeq]
          exact hrx
        · rw [hfoodeq]
          exact hry
        · rw [hbody, if_pos hfood]
          simp
        · rw [hscore]
          omega
      · have hne : nh ≠ food := fun heq => hfood ((coord_eq_iff nh food).mp heq)
        obtain ⟨hscore, hfoodeq⟩ := hfields2 hfood
        refine ⟨⟨nh, hn, fun heq => absurd heq hne,
          fun _ => ⟨hscore, hfoodeq, ?_, ?_⟩⟩, ?_⟩
        · rw [hbody, if_neg hfood]
        · rw [hbody, if_neg hfood]
          simp [List.length_dropLast]
        · rw [hscore]

/-- Witness for C3: a tick that eats the food directly ahead (food at
(5, 4), head at (4, 4) heading RIGHT on the 10 × 8 grid, draws rx = 2 <
hcells, ry = 3 < vcells) succeeds and the score does not decrease. -/
theorem food_scoring_witness :
    draw_frame (mkGame d0 0 .RIGHT [{ x := 4, y := 4 }, { x := 3, y := 4 }]
        { x := 5, y := 4 }) 2 3 = some (.ok w3after) ∧
    0 ≤ w3after.score := by
  refine ⟨by decide, ?_⟩
  exact (food_scoring_and_growth d0 0 .RIGHT { x := 4, y := 4 } [{ x := 3, y := 4 }]
    { x := 5, y := 4 } 2 3 w3after (by decide) (by decide) (by decide)).2

/-- C4: a direction-change request while PLAYING is dropped exactly when
it is the exact opposite of the current direction, and applied
otherwise. -/
theorem direction_reversal_dropped (current requested : Direction) :
    apply_direction_key current requested =
      if requested = opposite current then current else requested := by
  cases current <;> cases requested <;> rfl

/-- C5: after passing the wall check, the tick signals SelfCollision if
and only if the new head equals some cell of the post-move body other
than the new head itself: the body after the food-driven growth or tail
removal, with the new head already inserted at the front (the scanned
cells are exactly the post-move body minus its front element). -/
theorem self_collision_iff_post_move_hit
    (d : GameArea) (sc : Nat) (dir : Direction) (head : Coordinate)
    (rest : List Coordinate) (food : Coordinate) (rx ry : Nat) (nh : Coordinate)
    (hnh : new_head_of d dir head = some nh) :
    (∃ g2, draw_frame (mkGame d sc dir (head :: rest) food) rx ry
        = some (.selfHit g2)) ↔
      nh ∈ (if nh.x = food.x ∧ nh.y = food.y then head :: rest
            else (head :: rest).dropLast) := by
  rcases draw_frame_shape (mkGame d sc dir (head :: rest) food) rx ry with
    ⟨he, _⟩ | ⟨head2, rest2, hb2, hcase⟩
  · exact absurd he (by simp [mkGame])
  · have hb3 : head :: rest = head2 :: rest2 := hb2
    injection hb3 with e1 e2
    subst e1
    subst e2
    have htail : (advance_state (mkGame d sc dir (head :: rest) food) nh rx ry).snake.body.tail
        = (if nh.x = food.x ∧ nh.y = food.y then head :: rest
           else (head :: rest).dropLast) := by
      rw [advance_state_body]
      rfl
    rcases hcase with ⟨hn, _⟩ | ⟨nh2, hn, ⟨hsc, hany⟩ | ⟨hok, hany⟩⟩
    · simp only [mkGame] at hn
      rw [hnh] at hn
      exact Option.noConfusion hn
    · simp only [mkGame] at hn
      rw [hnh] at hn
      obtain rfl : nh = nh2 := Option.some.inj hn
      constructor
      · intro _
        rw [← htail]
        exact (any_beq_iff_mem nh _).mp hany
      · intro _
        exact ⟨_, hsc⟩
    · simp only [mkGame] at hn
      rw [hnh] at hn
      obtain rfl : nh = nh2 := Option.some.inj hn
      constructor
      · rintro ⟨g2, hg2⟩
        rw [hok] at hg2
        exact TickResult.noConfusion (Option.some.inj hg2)
      · intro hmem
        rw [← htail] at hmem
        rw [(any_beq_iff_mem nh _).mpr hmem] at hany
        exact Bool.noConfusion hany

/-- Witness for C5: heading LEFT from (5, 5) into (4, 5), a cell still
occupied by the post-move body, signals SelfCollision. -/
theorem self_collision_witness :
    new_head_of d0 .LEFT { x := 5, y := 5 } = some { x := 4, y := 5 } ∧
    (∃ g2, draw_frame (mkGame d0 0 .LEFT
        [{ x := 5, y := 5 }, { x := 5, y := 6 }, { x := 4, y := 6 },
         { x := 4, y := 5 }, { x := 3, y := 5 }] { x := 0, y := 0 }) 1 1
      = some (.selfHit g2)) := by
  refine ⟨by decide, ?_⟩
  exact (self_collision_iff_post_move_hit d0 0 .LEFT { x := 5, y := 5 }
    [{ x := 5, y := 6 }, { x := 4, y := 6 }, { x := 4, y := 5 }, { x := 3, y := 5 }]
    { x := 0, y := 0 } 1 1 { x := 4, y := 5 } (by decide)).mpr (by decide)

/-- C6: the cell-rectangle lookup returns no rectangle exactly when
coord.x > hcells or coord.y > vcells; in particular the coordinate
(hcells, vcells), one past the last valid cell in both axes, still yields
a rectangle (the historical `>` rather than `>=` check). -/
theorem cell_rect_out_of_bounds (display : GameArea) (coord : Coordinate) :
    (create_rect display coord = none ↔
      display.hcells < coord.x ∨ display.vcells < coord.y) ∧
    (create_rect display { x := display.hcells, y := display.vcells }).isSome = true := by
  refine ⟨?_, by simp [create_rect]⟩
  by_cases h1 : display.hcells < coord.x
  · simp [create_rect, h1]
  · by_cases h2 : display.vcells < coord.y <;> simp [create_rect, h1, h2]

/-- C7 (code bug exhibit): when the session leaves GAMEOVER through
STARTING back into PLAYING — a key press on the game-over screen, then
"New Game" confirmed on the menu — nothing resets the game: with seven
foods eaten and the dead snake still at the east wall, the session
re-enters PLAYING with score still 7 (not 0) and the old body (not the
freshly centered snake `create_snake` builds).  In the source,
`create_snake` is called only from `Game::new` (lib.rs line 276) and
`self.score` is written only at creation (line 290) and on eating (line
547), never on the restart path. -/
theorem new_round_keeps_stale_score_and_snake :
    restart_round { current_state := .GAMEOVER, game := dead_snake_game }
        [.otherKeyDown] [.returnKey] =
      some { current_state := .PLAYING, game := dead_snake_game } ∧
    dead_snake_game.score = 7 ∧ (7 : Nat) ≠ 0 ∧
    dead_snake_game.snake ≠ create_snake create_grid :=
  ⟨rfl, rfl, by decide, by decide⟩

/-- C8: the dispatch of the `start` driver: every (state, transition)
pair in the table updates the active state exactly as the table
prescribes; EXIT is global (in any state that does not handle it, the
session ends); every other unhandled pair is fatal, producing the
`invalid s t` outcome that carries both the offending state and the
offending transition (the diagnostic of the final `else` arm); no pair is
ever silently ignored. -/
theorem fsm_unknown_pair_is_fatal :
    (∀ s t, table_next s t = none → t ≠ .EXIT → fsm_step s t = .invalid s t) ∧
    (∀ s t s2, table_next s t = some s2 → fsm_step s t = .next s2) ∧
    (∀ s, fsm_step s .EXIT = .exitGame) ∧
    (∀ s t, ¬(fsm_step s t = .invalid s t) ↔
      ((table_next s t).isSome = true ∨ t = .EXIT)) ∧
    table_next .STARTING .PLAY = some .PLAYING ∧
    table_next .PLAYING .PAUSE = some .PAUSED ∧
    table_next .PLAYING .LOSE = some .GAMEOVER ∧
    table_next .PAUSED .PLAY = some .PLAYING ∧
    table_next .PAUSED .LOSE = some .GAMEOVER ∧
    table_next .GAMEOVER .PLAY = some .STARTING := by
  decide

/-- A successful or self-colliding tick keeps the body length or grows it
by one. -/
theorem tick_length_eq_or_succ (g g2 : Game) (rx ry : Nat)
    (h : draw_frame g rx ry = some (.ok g2) ∨
         draw_frame g rx ry = some (.selfHit g2)) :
    g2.snake.body.length = g.snake.body.length ∨
    g2.snake.body.length = g.snake.body.length + 1 := by
  rcases draw_frame_shape g rx ry with ⟨_, hn⟩ | ⟨head, rest, hb, hcase⟩
  · rcases h with h | h <;> (rw [hn] at h; exact Option.noConfusion h)
  · rcases hcase with ⟨_, hw⟩ | ⟨nh, _, ⟨hsc, _⟩ | ⟨hok, _⟩⟩
    · rcases h with h | h <;>
        (rw [hw] at h; exact TickResult.noConfusion (Option.some.inj h))
    · have hg2 : advance_state g nh rx ry = g2 := by
        rcases h with h | h
        · rw [hsc] at h
          exact TickResult.noConfusion (Option.some.inj h)
        · exact TickResult.selfHit.inj (Option.some.inj (hsc.symm.trans h))
      subst hg2
      have hbody := advance_state_body g nh rx ry
      by_cases hfood : nh.x = g.food.x ∧ nh.y = g.food.y
      · rw [hbody, if_pos hfood]
        right
        simp
      · rw [hbody, if_neg hfood]
        left
        rw [hb]
        simp only [List.length_cons, List.length_dropLast]
        omega
    · have hg2 : advance_state g nh rx ry = g2 := by
        rcases h with h | h
        · exact TickResult.ok.inj (Option.some.inj (hok.symm.trans h))
        · rw [hok] at h
          exact TickResult.noConfusion (Option.some.inj h)
      subst hg2
      have hbody := advance_state_body g nh rx ry
      by_cases hfood : nh.x = g.food.x ∧ nh.y = g.food.y
      · rw [hbody, if_pos hfood]
        right
        simp
      · rw [hbody, if_neg hfood]
        left
        rw [hb]
        simp only [List.length_cons, List.length_dropLast]
        omega

/-- The games one round can reach: the state `Game::new` builds over the
real grid (score 0, centered five-cell snake, any food cell), closed
under successful ticks and under the PLAYING loop's direction-key
handling. -/
inductive InRound : Game → Prop
  | start (food : Coordinate) :
      InRound { display := create_grid, score := 0,
                snake := create_snake create_grid, food := food }
  | tick (g g2 : Game) (rx ry : Nat) : InRound g →
      draw_frame g rx ry = some (.ok g2) → InRound g2
  | turn (g : Game) (requested : Direction) : InRound g →
      InRound { g with snake := { g.snake with
        direction := apply_direction_key g.snake.direction requested } }

/-- C9: the body starts at exactly 5 cells; every successful tick keeps
the length (tail popped, head inserted) or grows it by 1 (food eaten); so
within a round the length never drops below 5, the body is never empty,
and a tick never reaches the empty-body panic (`draw_frame` is never
`none` on a reachable state — in particular the `pop().unwrap()` of a
non-eating tick never fails, its body being non-empty at that point). -/
theorem body_length_never_decreases :
    ((create_snake create_grid).body.length = 5) ∧
    (∀ g g2 rx ry, draw_frame g rx ry = some (.ok g2) →
      g2.snake.body.length = g.snake.body.length ∨
      g2.snake.body.length = g.snake.body.length + 1) ∧
    (∀ g, InRound g → 5 ≤ g.snake.body.length) ∧
    (∀ g, InRound g → g.snake.body ≠ []) ∧
    (∀ g rx ry, InRound g → draw_frame g rx ry ≠ none) := by
  have hlen : ∀ g, InRound g → 5 ≤ g.snake.body.length := by
    intro g hg
    induction hg with
    | start food => exact Nat.le_refl 5
    | tick g g2 rx ry hg hok ih =>
      rcases tick_length_eq_or_succ g g2 rx ry (Or.inl hok) with h | h <;> omega
    | turn g req hg ih => exact ih
  refine ⟨rfl, fun g g2 rx ry hok => tick_length_eq_or_succ g g2 rx ry (Or.inl hok),
    hlen, fun g hg hnil => ?_, fun g rx ry hg hnone => ?_⟩
  · have h5 := hlen g hg
    rw [hnil] at h5
    simp at h5
  · rcases draw_frame_shape g rx ry with ⟨hb, _⟩ | ⟨head, rest, _, hcase⟩
    · have h5 := hlen g hg
      rw [hb] at h5
      simp at h5
    · rcases hcase with ⟨_, hw⟩ | ⟨nh, _, ⟨hsc, _⟩ | ⟨hok, _⟩⟩
      · rw [hw] at hnone
        exact Option.noConfusion hnone
      · rw [hsc] at hnone
        exact Option.noConfusion hnone
      · rw [hok] at hnone
        exact Option.noConfusion hnone

/-- C10: a tick ending in SelfCollision reports the loss only after the
state is already mutated: the new head sits at the front of the body, and
either the tail was removed, or — when the fatal head cell held the food
— the score was incremented and the food respawned at the drawn cell. -/
theorem self_collision_reports_after_mutation (g g2 : Game) (rx ry : Nat)
    (h : draw_frame g rx ry = some (.selfHit g2)) :
    ∃ head rest nh, g.snake.body = head :: rest ∧
      new_head_of g.display g.snake.direction head = some nh ∧
      g2.snake.body =
        nh :: (if nh.x = g.food.x ∧ nh.y = g.food.y then g.snake.body
               else g.snake.body.dropLast) ∧
      ((nh.x = g.food.x ∧ nh.y = g.food.y) →
        g2.score = g.score + 1 ∧ g2.food = { x := rx, y := ry }) ∧
      (¬(nh.x = g.food.x ∧ nh.y = g.food.y) →
        g2.score = g.score ∧ g2.food = g.food ∧
        g2.snake.body.length = g.snake.body.length) := by
  rcases draw_frame_shape g rx ry with ⟨_, hn⟩ | ⟨head, rest, hb, hcase⟩
  · rw [hn] at h
    exact Option.noConfusion h
  · rcases hcase with ⟨_, hw⟩ | ⟨nh, hn, ⟨hsc, _⟩ | ⟨hok, _⟩⟩
    · rw [hw] at h
      exact TickResult.noConfusion (Option.some.inj h)
    · have hadv : advance_state g nh rx ry = g2 :=
        TickResult.selfHit.inj (Option.some.inj (hsc.symm.trans h))
      subst hadv
      have hbody := advance_state_body g nh rx ry
      obtain ⟨hf1, hf2, -, -⟩ := advance_state_fields g nh rx ry
      refine ⟨head, rest, nh, hb, hn, hbody, hf1, fun hnf => ?_⟩
      obtain ⟨hs, hf⟩ := hf2 hnf
      refine ⟨hs, hf, ?_⟩
      rw [hbody, if_neg hnf, hb]
      simp only [List.length_cons, List.length_dropLast]
      omega
    · rw [hok] at h
      exact TickResult.noConfusion (Option.some.inj h)

/-- A game one tick away from self-collision: heading LEFT from (5, 5)
into (4, 5), which the post-move body still occupies; two foods eaten. -/
def w10 : Game :=
  mkGame d0 2 .LEFT
    [{ x := 5, y := 5 }, { x := 5, y := 6 }, { x := 4, y := 6 },
     { x := 4, y := 5 }, { x := 3, y := 5 }] { x := 7, y := 7 }

/-- The state the self-colliding witness tick leaves behind: head
inserted, tail (3, 5) removed, score and food untouched. -/
def w10after : Game :=
  mkGame d0 2 .LEFT
    [{ x := 4, y := 5 }, { x := 5, y := 5 }, { x := 5, y := 6 },
     { x := 4, y := 6 }, { x := 4, y := 5 }] { x := 7, y := 7 }

/-- Witness for C10: the self-colliding tick on `w10` leaves the mutated
state `w10after`. -/
theorem self_collision_mutation_witness :
    draw_frame w10 0 0 = some (.selfHit w10after) ∧
    (∃ head rest nh, w10.snake.body = head :: rest ∧
      new_head_of w10.display w10.snake.direction head = some nh ∧
      w10after.snake.body =
        nh :: (if nh.x = w10.food.x ∧ nh.y = w10.food.y then w10.snake.body
               else w10.snake.body.dropLast) ∧
      ((nh.x = w10.food.x ∧ nh.y = w10.food.y) →
        w10after.score = w10.score + 1 ∧ w10after.food = { x := 0, y := 0 }) ∧
      (¬(nh.x = w10.food.x ∧ nh.y = w10.food.y) →
        w10after.score = w10.score ∧ w10after.food = w10.food ∧
        w10after.snake.body.length = w10.snake.body.length)) :=
  ⟨by decide, self_collision_reports_after_mutation w10 w10after 0 0 (by decide)⟩

end SnakeGame
